import Mathlib

/-
Shallow embedding of the DTXT reference implementation
(src/ref-impl/rs/src/lib.rs): the value model, the recursive-descent
parser and the canonical stringifier.

Modelling conventions:
* The parser state is the list of remaining input characters (the Rust
  code keeps the full byte slice plus a position; since every access is
  `input[pos..]`, the suffix is an exact representation).  Error values
  that carry a position store the length of the remaining input at the
  error site; the top-level `parse` converts that to an absolute
  position (`total - remaining`), which coincides with the Rust byte
  position on ASCII input (all inputs evaluated here are ASCII).
* Rust panics (out-of-bounds slicing) are modelled by the distinguished
  outcome `PFail.panicked`.
* The recursion of the mutually recursive parser functions is driven by
  an explicit fuel parameter so that every definition is structurally
  recursive and kernel-computable; `PFail.outOfFuel` marks exhaustion
  and is unreachable for the generous fuel used by `parse`.
* `f64` values are not shallowly embeddable; `DTXTValue.number` stores
  the accepted numeric lexeme instead, and the success / failure of the
  Rust `str::parse::<f64>` call is modelled by the decidable grammar
  predicate `rustF64Accepts` (Rust's f64 parsing fails exactly on a
  grammar mismatch; overflow still succeeds).
-/

namespace DTXT

/-- The backtick character (string delimiter of the format). -/
def tick : Char := Char.ofNat 96

/-- The opening brace character. -/
def lbrace : Char := Char.ofNat 123

/-- The closing brace character. -/
def rbrace : Char := Char.ofNat 125

/-- Remaining-input parser state (suffix of the input). -/
abbrev St := List Char

/-- The value model, mirroring `enum DTXTValue` of the source.  `number`
stores the numeric lexeme (see the modelling note above); `bigInt`
stores the mathematical integer (the parser enforces the i64 range);
`bytes` stores byte values as naturals below 256. -/
inductive DTXTValue where
  | str (s : String)
  | number (lex : String)
  | bool (b : Bool)
  | null
  | bigInt (n : Int)
  | date (s : String)
  | bytes (bs : List Nat)
  | array (elems : List DTXTValue)
  | object (entries : List (String × DTXTValue))
deriving Repr

/-- Object entries: the source uses `FxHashMap<&str, DTXTValue>`; we
represent the map as an association list built by `insertKV`, which
reproduces the map's insert-overwrite semantics. -/
abbrev Entries := List (String × DTXTValue)

/-- The error taxonomy of the source (`enum DTXTError`).  Inside the
parser the `pos` fields hold the remaining-input length at the error
site; `parse` converts them to absolute positions. -/
inductive DTXTError where
  | unexpectedChar (pos : Nat) (c : Char)
  | unexpectedEOF
  | invalidNumber (s : String)
  | invalidConstructor (s : String)
  | trailingData (pos : Nat)
deriving Repr, DecidableEq

/-- A parser failure: a `DTXTError`, a Rust panic, or fuel exhaustion
(an artifact of the embedding, unreachable under the fuel `parse`
supplies). -/
inductive PFail where
  | fail (e : DTXTError)
  | panicked
  | outOfFuel
deriving Repr, DecidableEq

abbrev PRes (α : Type) := Except PFail α

/-- Consume a `//` comment body: everything through the next newline
(or the whole rest if none), as `skip_whitespace` does via `memchr`. -/
def dropCommentTail : List Char → List Char
  | [] => []
  | c :: r => if c = '\n' then r else dropCommentTail r

/-- One byte of `skip_whitespace` is insignificant if it is
space/tab/CR/LF. -/
def isWsChar (c : Char) : Bool := c = ' ' ∨ c = '\t' ∨ c = '\r' ∨ c = '\n'

/-- Fuelled worker for `skip_whitespace`; the fuel `st.length` used by
`skipWs` always suffices because every step strictly shortens the
input. -/
def skipWsF : Nat → St → St
  | 0, st => st
  | f + 1, st =>
    match st with
    | [] => []
    | c :: r =>
      if isWsChar c then skipWsF f r
      else if c = '/' then
        match r with
        | c2 :: r2 => if c2 = '/' then skipWsF f (dropCommentTail r2) else c :: r
        | [] => c :: r
      else c :: r

/-- Rust `skip_whitespace`: consume runs of space/tab/CR/LF and `//` line
comments. -/
def skipWs (st : St) : St := skipWsF st.length st

/-- Key / identifier characters: ASCII alphanumeric or underscore. -/
def isKeyChar (c : Char) : Bool := c.isAlphanum || c = '_'

/-- Rust `parse_key`: take the longest alphanumeric/underscore run (possibly
empty); it never fails. -/
def parseKey (st : St) : String × St :=
  (String.mk (st.takeWhile isKeyChar), st.dropWhile isKeyChar)

/-- The string scan continues on any byte that is not a backtick. -/
def notTick (c : Char) : Bool := ¬ c = tick

/-- The constructor payload scan continues on any byte that is not a
closing parenthesis. -/
def notRParen (c : Char) : Bool := ¬ c = ')'

/-- Rust `parse_string`: skip the opening backtick, then scan to the next
backtick (`memchr`); no closing backtick is `UnexpectedEOF`. -/
def parseString (st : St) : PRes (String × St) :=
  let st1 := st.tail
  match st1.dropWhile notTick with
  | _ :: rest => .ok (String.mk (st1.takeWhile notTick), rest)
  | [] => .error (.fail .unexpectedEOF)

/-- The grammar accepted by Rust's `str::parse::<f64>` restricted to
the characters the number scanner can emit (sign, digits, dot,
exponent): `sign? (digits+ ('.' digits*)? | '.' digits+)
(('e'|'E') sign? digits+)?`.  Rust's f64 parsing fails exactly when
this grammar is not matched (overflow etc. still succeed). -/
def rustF64Accepts (cs : List Char) : Bool :=
  let cs1 := match cs with
    | c :: r => if c = '+' ∨ c = '-' then r else cs
    | [] => cs
  let ip := cs1.takeWhile Char.isDigit
  let cs2 := cs1.dropWhile Char.isDigit
  let mant : Bool × List Char :=
    match cs2 with
    | c :: r3 =>
      if c = '.' then
        (ip.length > 0 || (r3.takeWhile Char.isDigit).length > 0,
          r3.dropWhile Char.isDigit)
      else (ip.length > 0, cs2)
    | [] => (ip.length > 0, cs2)
  mant.1 &&
    match mant.2 with
    | [] => true
    | e :: r4 =>
      if e = 'e' ∨ e = 'E' then
        let r5 := match r4 with
          | s :: r5' => if s = '+' ∨ s = '-' then r5' else r4
          | [] => r4
        decide (r5 ≠ []) && r5.all Char.isDigit
      else false

/-- Rust `parse_number`: scan `-`, an integer part (`0` alone, or a nonzero
digit followed by digits), an optional `.` with any number of digits,
and an optional exponent with optional sign and any number of digits;
then hand the lexeme to Rust's f64 conversion, whose failure is
`InvalidNumber`.  The resulting value stores the lexeme (see the
modelling note). -/
def parseNumber (st : St) : PRes (DTXTValue × St) :=
  let s1 : List Char × St :=
    match st with
    | c :: r => if c = '-' then (['-'], r) else ([], st)
    | [] => ([], st)
  let s2 : List Char × St :=
    match s1.2 with
    | c :: r =>
      if c = '0' then (['0'], r)
      else if '1' ≤ c ∧ c ≤ '9' then
        (s1.2.takeWhile Char.isDigit, s1.2.dropWhile Char.isDigit)
      else ([], s1.2)
    | [] => ([], s1.2)
  let s3 : List Char × St :=
    match s2.2 with
    | c :: r =>
      if c = '.' then ('.' :: r.takeWhile Char.isDigit, r.dropWhile Char.isDigit)
      else ([], s2.2)
    | [] => ([], s2.2)
  let s4 : List Char × St :=
    match s3.2 with
    | c :: r =>
      if c = 'e' ∨ c = 'E' then
        match r with
        | s :: r2 =>
          if s = '+' ∨ s = '-' then
            (c :: s :: r2.takeWhile Char.isDigit, r2.dropWhile Char.isDigit)
          else (c :: r.takeWhile Char.isDigit, r.dropWhile Char.isDigit)
        | [] => ([c], [])
      else ([], s3.2)
    | [] => ([], s3.2)
  let lex := s1.1 ++ s2.1 ++ s3.1 ++ s4.1
  if rustF64Accepts lex then .ok (.number (String.mk lex), s4.2)
  else .error (.fail (.invalidNumber (String.mk lex)))

/-- Rust `i64::from_str`: optional sign, at least one digit, nothing
else, and the value must fit in a signed 64-bit integer. -/
def i64FromStr? (cs : List Char) : Option Int :=
  let sd : Bool × List Char :=
    match cs with
    | c :: r => if c = '+' then (false, r) else if c = '-' then (true, r) else (false, cs)
    | [] => (false, cs)
  if sd.2 ≠ [] ∧ sd.2.all Char.isDigit then
    let n : Nat := sd.2.foldl (fun a c => 10 * a + (c.toNat - 48)) 0
    let v : Int := if sd.1 then -(n : Int) else (n : Int)
    if -(2 ^ 63) ≤ v ∧ v < 2 ^ 63 then some v else none
  else none

/-- One hex digit as accepted by `u8::from_str_radix(_, 16)`. -/
def hexDigit? (c : Char) : Option Nat :=
  if '0' ≤ c ∧ c ≤ '9' then some (c.toNat - 48)
  else if 'a' ≤ c ∧ c ≤ 'f' then some (c.toNat - 87)
  else if 'A' ≤ c ∧ c ≤ 'F' then some (c.toNat - 55)
  else none

/-- Rust `u8::from_str_radix` applied to a two-character slice: an optional
leading `+` is accepted (a quirk of Rust's unsigned parsing), otherwise
both characters must be hex digits. -/
def hexPairVal? (c1 c2 : Char) : Option Nat :=
  if c1 = '+' then hexDigit? c2
  else
    match hexDigit? c1, hexDigit? c2 with
    | some a, some b => some (16 * a + b)
    | _, _ => none

/-- The `B(...)` payload loop: `for i in (0..len).step_by(2)` slicing
`payload[i..i+2]`.  On an odd-length payload the final slice `i..i+2`
runs past the end of the string, which in Rust is an out-of-bounds
panic, modelled by `PFail.panicked`; a bad pair is `InvalidConstructor`
carrying the `B(payload)` message. -/
def decodeHexLoop (payload : String) : List Char → PRes (List Nat)
  | [] => .ok []
  | [_] => .error .panicked
  | c1 :: c2 :: rest =>
    match hexPairVal? c1 c2 with
    | some b => (decodeHexLoop payload rest).map (fun bs => b :: bs)
    | none => .error (.fail (.invalidConstructor ("B(" ++ payload ++ ")")))

/-- Rust `parse_constructor`: scan the identifier, require `(`, scan the
payload to the next `)` (end of input inside the payload is
`UnexpectedEOF`), then interpret `D` / `BN` / `B`; any other identifier
is `InvalidConstructor`. -/
def parseConstructor (st : St) : PRes (DTXTValue × St) :=
  let ident := String.mk (st.takeWhile isKeyChar)
  match st.dropWhile isKeyChar with
  | c :: r2 =>
    if c = '(' then
      let payload := String.mk (r2.takeWhile notRParen)
      match r2.dropWhile notRParen with
      | [] => .error (.fail .unexpectedEOF)
      | _ :: r3 =>
        if ident = "D" then .ok (.date payload, r3)
        else if ident = "BN" then
          match i64FromStr? payload.data with
          | some n => .ok (.bigInt n, r3)
          | none => .error (.fail (.invalidConstructor ("BN(" ++ payload ++ ")")))
        else if ident = "B" then
          (decodeHexLoop payload payload.data).map (fun bs => (.bytes bs, r3))
        else .error (.fail (.invalidConstructor ident))
    else .error (.fail (.invalidConstructor ident))
  | [] => .error (.fail (.invalidConstructor ident))

/-- Map insertion with overwrite (`FxHashMap::insert`): replace the
binding of an existing key in place, otherwise append the new binding
(the hash map itself is unordered; the parser only ever builds
duplicate-free entry lists with this operation). -/
def insertKV : Entries → String → DTXTValue → Entries
  | [], k, v => [(k, v)]
  | p :: t, k, v => if p.1 == k then (k, v) :: t else p :: insertKV t k v

/-- The shared post-member step of the object and array loops: after
`skip_whitespace`, consume a single `,` if present (and skip
whitespace after it). -/
def commaStep (st : St) : St :=
  match st with
  | c :: r => if c = ',' then skipWs r else st
  | [] => st

/-- The `parse_object` member loop (`while current != Some(b'}')`):
parse a key, require `:`, parse a value, insert with overwrite, then
`commaStep`.  A missing `:` is `UnexpectedChar` with the current
character or a NUL placeholder at end of input. -/
def objLoopF (pv : St → PRes (DTXTValue × St)) :
    Nat → Entries → St → PRes (Entries × St)
  | 0, _, _ => .error .outOfFuel
  | f + 1, acc, st =>
    if st.head? = some rbrace then .ok (acc, st.tail)
    else
      let ks := parseKey st
      let st2 := skipWs ks.2
      if st2.head? = some ':' then
        match pv st2.tail with
        | .ok (v, st3) => objLoopF pv f (insertKV acc ks.1 v) (commaStep (skipWs st3))
        | .error e => .error e
      else .error (.fail (.unexpectedChar st2.length (st2.head?.getD (Char.ofNat 0))))

/-- Rust `parse_object`: skip the first character unconditionally (the
source advances without checking that it is `{`), skip whitespace, and
run the member loop. -/
def parseObjectF (pv : St → PRes (DTXTValue × St)) (f : Nat) (st : St) :
    PRes (Entries × St) :=
  objLoopF pv f [] (skipWs st.tail)

/-- The `parse_array` element loop (`while current != Some(b']')`). -/
def arrLoopF (pv : St → PRes (DTXTValue × St)) :
    Nat → List DTXTValue → St → PRes (List DTXTValue × St)
  | 0, _, _ => .error .outOfFuel
  | f + 1, acc, st =>
    if st.head? = some ']' then .ok (acc, st.tail)
    else
      match pv st with
      | .ok (v, st1) => arrLoopF pv f (acc ++ [v]) (commaStep (skipWs st1))
      | .error e => .error e

/-- Rust `parse_array`: skip `[`, skip whitespace, run the element loop. -/
def parseArrayF (pv : St → PRes (DTXTValue × St)) (f : Nat) (st : St) :
    PRes (List DTXTValue × St) :=
  arrLoopF pv f [] (skipWs st.tail)

/-- Rust `parse_value`: skip whitespace, then dispatch on the current
character; `T` / `F` / `N` are literals only when not immediately
followed by `(`, otherwise they start a constructor identifier. -/
def parseValueF : Nat → St → PRes (DTXTValue × St)
  | 0, _ => .error .outOfFuel
  | f + 1, st0 =>
    let st := skipWs st0
    match st with
    | [] => .error (.fail .unexpectedEOF)
    | c :: rest =>
      if c = lbrace then
        (parseObjectF (parseValueF f) f (c :: rest)).map (fun p => (.object p.1, p.2))
      else if c = '[' then
        (parseArrayF (parseValueF f) f (c :: rest)).map (fun p => (.array p.1, p.2))
      else if c = tick then
        (parseString (c :: rest)).map (fun p => (.str p.1, p.2))
      else if c = '-' ∨ c.isDigit then parseNumber (c :: rest)
      else if c = 'T' ∧ ¬ rest.head? = some '(' then .ok (.bool true, rest)
      else if c = 'F' ∧ ¬ rest.head? = some '(' then .ok (.bool false, rest)
      else if c = 'N' ∧ ¬ rest.head? = some '(' then .ok (.null, rest)
      else if c.isAlpha ∨ c = '_' then parseConstructor (c :: rest)
      else .error (.fail (.unexpectedChar (c :: rest).length c))

/-- Rewrite the remaining-length stored in an `UnexpectedChar` into an
absolute position (see the modelling note). -/
def mapTopErr (total : Nat) : PFail → PFail
  | .fail (.unexpectedChar remLen c) => .fail (.unexpectedChar (total - remLen) c)
  | e => e

/-- Rust `DTXTParser::parse`, i.e. the public `parse` function: skip leading
insignificant bytes, parse one object, skip insignificant bytes, and
report `TrailingData` if anything remains. -/
def parse (s : String) : PRes Entries :=
  let total := s.data.length
  let st0 := skipWs s.data
  match parseObjectF (parseValueF (total + 2)) (total + 2) st0 with
  | .ok (m, st1) =>
    let st2 := skipWs st1
    if st2.isEmpty then .ok m
    else .error (.fail (.trailingData (total - st2.length)))
  | .error e => .error (mapTopErr total e)

/-! ### Stringifier -/

/-- The key order used by `keys.sort_unstable()` on `Vec<&str>`:
lexicographic byte order, modelled as lexicographic order on the
character lists (identical on the ASCII keys the grammar produces). -/
def keyLe (a b : String) : Prop := a.data ≤ b.data

instance : DecidableRel keyLe := fun a b => inferInstanceAs (Decidable (a.data ≤ b.data))

instance : IsTotal String keyLe := ⟨fun a b => le_total a.data b.data⟩

instance : IsTrans String keyLe := ⟨fun _ _ _ h₁ h₂ => le_trans h₁ h₂⟩

instance : IsAntisymm String keyLe :=
  ⟨fun a b h₁ h₂ => by
    cases a with
    | mk da => cases b with
      | mk db => exact congrArg String.mk (le_antisymm h₁ h₂)⟩

/-- The sorted key list the stringifier iterates over: the object's
keys sorted ascending (`keys.sort_unstable()`). -/
def sortKeys (m : Entries) : List String :=
  List.insertionSort keyLe (m.map Prod.fst)

/-- The value stored under a key (`map[key]`; with the parser's
duplicate-free entries the default is never used). -/
def lookupVal (m : Entries) (k : String) : DTXTValue :=
  (List.lookup k m).getD .null

/-- Makes `n` repetitions of the indent unit (`for _ in 0..n push_str`). -/
def repeatStr (u : String) (n : Nat) : String := String.join (List.replicate n u)

/-- The `HEX` digit table of the source. -/
def HEXDIGITS : List Char := "0123456789ABCDEF".data

/-- Hex digit lookup (`HEX[i]`); inputs stay below 16 for byte data. -/
def hexChar (n : Nat) : Char := HEXDIGITS.getD n (Char.ofNat 48)

/-- Rust `stringify_value`, fuelled (see the modelling note): compact mode
when `ind = none`, indented mode when `ind = some unit`.  The `number`
branch emits the stored lexeme in place of the `ryu` rendering of the
f64 (floating-point formatting is outside the embedding); every other
branch follows the source byte for byte. -/
def stringifyValue : Nat → DTXTValue → Option String → Nat → String
  | 0, _, _, _ => ""
  | f + 1, v, ind, level =>
    match v with
    | .str s => String.singleton tick ++ s ++ String.singleton tick
    | .number lex => lex
    | .bool true => "T"
    | .bool false => "F"
    | .null => "N"
    | .bigInt n => "BN(" ++ toString n ++ ")"
    | .date s => "D(" ++ s ++ ")"
    | .bytes bs =>
      "B(" ++ String.mk ((bs.map (fun b => [hexChar (b / 16 % 16), hexChar (b % 16)])).flatten) ++ ")"
    | .array [] => "[]"
    | .array arr =>
      match ind with
      | some u =>
        "[" ++ "\n" ++
          String.join (arr.map (fun item =>
            repeatStr u (level + 1) ++ stringifyValue f item ind (level + 1) ++ ",\n")) ++
          repeatStr u level ++ "]"
      | none =>
        "[" ++ String.intercalate ","
          (arr.map (fun item => stringifyValue f item ind (level + 1))) ++ "]"
    | .object [] => "\x7b\x7d"
    | .object m =>
      let ks := sortKeys m
      match ind with
      | some u =>
        "\x7b" ++ "\n" ++
          String.join (ks.map (fun k =>
            repeatStr u (level + 1) ++ k ++ ": " ++
              stringifyValue f (lookupVal m k) ind (level + 1) ++ ",\n")) ++
          repeatStr u level ++ "\x7d"
      | none =>
        "\x7b" ++ String.intercalate ","
          (ks.map (fun k => k ++ ":" ++ stringifyValue f (lookupVal m k) ind (level + 1))) ++
          "\x7d"

/-- The public `stringify` entry point is `stringifyValue` at fuel
exceeding the tree depth and level 0 (the source wrapper only
allocates the output buffer); theorems quantify over the fuel or
supply a concrete sufficient one. -/
def stringify (fuel : Nat) (v : DTXTValue) (ind : Option String) : String :=
  stringifyValue fuel v ind 0

end DTXT

namespace DTXT

/-! ### Helper lemmas -/

/-- Rust `skip_whitespace` halts immediately on a byte that is neither
whitespace nor a slash. -/
theorem skipWs_cons (c : Char) (r : St) (h1 : isWsChar c = false) (h2 : ¬ c = '/') :
    skipWs (c :: r) = c :: r := by
  simp [skipWs, skipWsF, h1, h2]

/-- A scan stops exactly at the first failing element. -/
theorem takeWhile_append_stop {α : Type} (q : α → Bool) (l : List α) (x : α) (r : List α)
    (hl : ∀ c ∈ l, q c = true) (hx : q x = false) :
    (l ++ x :: r).takeWhile q = l := by
  induction l with
  | nil => simp [List.takeWhile_cons, hx]
  | cons a as ih =>
    have ha := hl a (List.mem_cons_self a as)
    simp only [List.cons_append, List.takeWhile_cons, ha, if_true]
    exact congrArg (a :: ·) (ih (fun c hc => hl c (List.mem_cons_of_mem a hc)))

/-- The rest after a scan starts at the first failing element. -/
theorem dropWhile_append_stop {α : Type} (q : α → Bool) (l : List α) (x : α) (r : List α)
    (hl : ∀ c ∈ l, q c = true) (hx : q x = false) :
    (l ++ x :: r).dropWhile q = x :: r := by
  induction l with
  | nil => simp [List.dropWhile_cons, hx]
  | cons a as ih =>
    have ha := hl a (List.mem_cons_self a as)
    simp only [List.cons_append, List.dropWhile_cons, ha, if_true]
    exact ih (fun c hc => hl c (List.mem_cons_of_mem a hc))

/-- The post-member comma step is the identity when no comma is
present. -/
theorem commaStep_of_head_ne (st : St) (h : ¬ st.head? = some ',') :
    commaStep st = st := by
  cases st with
  | nil => rfl
  | cons c r =>
    have : ¬ c = ',' := by simpa using h
    simp [commaStep, this]

/-! ### C2 -/

/-- C2: the `B(payload)` decoder turns adjacent hex digit pairs into
bytes, most-significant nibble first (`B(1A2B)` gives bytes 0x1A 0x2B);
but on an odd-length payload such as `B(1A2)` the final two-character
slice `payload[i..i+2]` runs out of bounds, so the Rust code panics
instead of returning the `InvalidConstructor` error that the claim (and
the spec's own boundary-case table) require. -/
theorem claimC2_bytes_constructor :
    parse "\x7ba:B(1A2B)\x7d" = .ok [("a", .bytes [26, 43])] ∧
    parse "\x7ba:B(1A2)\x7d" = .error .panicked ∧
    decodeHexLoop "1A2" "1A2".data = .error .panicked :=
  ⟨rfl, rfl, rfl⟩

/-! ### C4 -/

/-- C4 counterexample: the claim says the lexeme `1.` (no fractional
digits) is rejected, but `parse` accepts it (Rust's `f64` conversion
accepts `1.`), yielding the number with lexeme `1.`. -/
theorem claimC4_counterexample :
    parse "\x7ba:1.\x7d" = .ok [("a", .number "1.")] := rfl

/-- C4 (amended): the number scanner accepts a superset of the JSON
grammar (a dot or an exponent marker may be followed by zero digits and
the integer part may be missing) and defers to Rust's f64 grammar:
`1.` and `-.5` parse successfully, a lexeme Rust rejects such as `1e`
is an `InvalidNumber` error, and a multi-digit leading-zero integer is
still rejected (the scanner stops after `0`, making the next digit a
trailing `UnexpectedChar`). -/
theorem claimC4_amended :
    parse "\x7ba:-.5\x7d" = .ok [("a", .number "-.5")] ∧
    parse "\x7ba:1.5\x7d" = .ok [("a", .number "1.5")] ∧
    parse "\x7ba:1e\x7d" = .error (.fail (.invalidNumber "1e")) ∧
    parse "\x7ba:01\x7d" = .error (.fail (.unexpectedChar 5 rbrace)) ∧
    rustF64Accepts "1.".data = true ∧ rustF64Accepts "-.5".data = true ∧
    rustF64Accepts "1e".data = false :=
  ⟨rfl, rfl, rfl, rfl, rfl, rfl, rfl⟩

/-! ### C5 -/

/-- C5 counterexample: the claim says any input whose first
non-insignificant byte is not an opening brace makes `parse` fail, but
the input starting with `X` parses successfully (to the object with
`a` bound to the number 1). -/
theorem claimC5_counterexample :
    parse "Xa:1\x7d" = .ok [("a", .number "1")] := rfl

/-- C5 (amended): `parse_object` consumes its first byte without ever
checking that it is an opening brace, so `parse` treats the first
non-insignificant byte identically whatever it is: replacing it by any
other non-whitespace, non-slash byte cannot change the result, and in
particular the brace-less input `Xa:1}` parses exactly like `{a:1}`. -/
theorem claimC5_amended :
    (∀ (c₁ c₂ : Char) (r : List Char),
        isWsChar c₁ = false → ¬ c₁ = '/' → isWsChar c₂ = false → ¬ c₂ = '/' →
        parse (String.mk (c₁ :: r)) = parse (String.mk (c₂ :: r))) ∧
    parse "Xa:1\x7d" = parse "\x7ba:1\x7d" ∧
    parse "\x7ba:1\x7d" = .ok [("a", .number "1")] := by
  refine ⟨?_, rfl, rfl⟩
  intro c₁ c₂ r h1 h2 h3 h4
  simp only [parse, parseObjectF, String.mk, List.length_cons,
    skipWs_cons c₁ r h1 h2, skipWs_cons c₂ r h3 h4, List.tail_cons]

/-- C5 witness: the general part of the amended claim instantiated at
`X` versus the opening brace in front of `a:1}`. -/
theorem claimC5_witness :
    parse (String.mk ('X' :: "a:1\x7d".data)) = parse (String.mk (lbrace :: "a:1\x7d".data)) :=
  claimC5_amended.1 'X' lbrace "a:1\x7d".data (by decide) (by decide) (by decide) (by decide)

/-! ### C7 -/

/-- Overwriting the same key twice keeps only the last value. -/
theorem insertKV_insertKV (m : Entries) (k : String) (v₁ v₂ : DTXTValue) :
    insertKV (insertKV m k v₁) k v₂ = insertKV m k v₂ := by
  induction m with
  | nil => simp [insertKV]
  | cons p t ih =>
    by_cases h : p.1 == k
    · simp [insertKV, h]
    · simp only [insertKV, h, Bool.false_eq_true, if_false, ih]

/-- After an insert, the key is bound to the inserted value. -/
theorem lookup_insertKV (m : Entries) (k : String) (v : DTXTValue) :
    List.lookup k (insertKV m k v) = some v := by
  induction m with
  | nil => simp [insertKV, List.lookup]
  | cons p t ih =>
    by_cases h : p.1 == k
    · simp [insertKV, h, List.lookup]
    · have h2 : (k == p.1) = false := by
        rw [beq_eq_false_iff_ne]
        exact fun he => (by simpa using h : ¬ p.1 = k) (Eq.symm he)
      simp [insertKV, h, List.lookup, h2, ih]

/-- C7: duplicate keys are resolved by overwrite, last occurrence
winning, and the parse succeeds: `{a:1,a:2}` yields the single-entry
object binding `a` to 2, and in general re-inserting a key replaces its
binding. -/
theorem claimC7_last_wins :
    parse "\x7ba:1,a:2\x7d" = .ok [("a", .number "2")] ∧
    (∀ (m : Entries) (k : String) (v₁ v₂ : DTXTValue),
        insertKV (insertKV m k v₁) k v₂ = insertKV m k v₂) ∧
    (∀ (m : Entries) (k : String) (v : DTXTValue),
        List.lookup k (insertKV m k v) = some v) :=
  ⟨rfl, insertKV_insertKV, lookup_insertKV⟩

end DTXT
namespace DTXT

/-- A guarded `some` equals `some n` only when the guard holds and the
payloads agree. -/
theorem ifSome_inv {α : Type} {c : Prop} [Decidable c] {v n : α}
    (h : (if c then some v else none) = some n) : c ∧ v = n := by
  split at h
  · exact ⟨by assumption, Option.some.inj h⟩
  · exact Option.noConfusion h

/-- Scanning a payload that contains no closing parenthesis, followed
by one, stops exactly at that parenthesis. -/
theorem payload_scan (p rest : St) (hr : (')' : Char) ∉ p) :
    (p ++ ')' :: rest).takeWhile notRParen = p ∧
    (p ++ ')' :: rest).dropWhile notRParen = ')' :: rest := by
  have hl : ∀ c ∈ p, notRParen c = true := by
    intro c hc
    simp only [notRParen, decide_eq_true_eq]
    exact fun h => hr (h ▸ hc)
  have hx : notRParen ')' = false := by decide
  exact ⟨takeWhile_append_stop _ p ')' rest hl hx,
    dropWhile_append_stop _ p ')' rest hl hx⟩

/-! ### C3 -/

/-- C3 counterexample: the claim says that an object opened by an
opening brace with no closing brace is an `UnexpectedEOF` error, but
parsing the single-character opening-brace input yields
`UnexpectedChar` at position 1 with a NUL placeholder character (the
object loop reports the missing colon instead of end of input). -/
theorem claimC3_counterexample :
    parse "\x7b" = .error (.fail (.unexpectedChar 1 (Char.ofNat 0))) ∧
    ¬ parse "\x7b" = .error (.fail .unexpectedEOF) :=
  ⟨rfl, fun h => nomatch h⟩

/-- C3 (amended): an input that ends inside an unterminated string or
an unterminated constructor payload, or that ends where a value is
required, yields `UnexpectedEOF`; but an input that ends inside an
open object yields `UnexpectedChar` (at end of input, with a NUL
placeholder), because the object loop reports a missing colon rather
than end of input. -/
theorem claimC3_amended :
    (∀ r : St, tick ∉ r → parseString (tick :: r) = .error (.fail .unexpectedEOF)) ∧
    (∀ r : St, (')' : Char) ∉ r →
        parseConstructor ('D' :: '(' :: r) = .error (.fail .unexpectedEOF)) ∧
    (∀ f : Nat, parseValueF (f + 1) [] = .error (.fail .unexpectedEOF)) ∧
    parse "\x7ba:`xy" = .error (.fail .unexpectedEOF) ∧
    parse "\x7ba:D(12" = .error (.fail .unexpectedEOF) ∧
    parse "\x7ba:[" = .error (.fail .unexpectedEOF) ∧
    parse "\x7b" = .error (.fail (.unexpectedChar 1 (Char.ofNat 0))) := by
  refine ⟨?_, ?_, fun f => rfl, rfl, rfl, rfl, rfl⟩
  · intro r hr
    have hdrop : r.dropWhile notTick = [] := by
      rw [List.dropWhile_eq_nil_iff]
      intro x hx
      simp only [notTick, decide_eq_true_eq]
      exact fun h => hr (h ▸ hx)
    simp [parseString, hdrop]
  · intro r hr
    have hdrop : r.dropWhile notRParen = [] := by
      rw [List.dropWhile_eq_nil_iff]
      intro x hx
      simp only [notRParen, decide_eq_true_eq]
      exact fun h => hr (h ▸ hx)
    have key : parseConstructor ('D' :: '(' :: r) =
        (match r.dropWhile notRParen with
         | [] => (.error (.fail .unexpectedEOF) : PRes (DTXTValue × St))
         | _ :: r3 => .ok (.date (String.mk (r.takeWhile notRParen)), r3)) := rfl
    rw [key, hdrop]

/-- C3 witness: the amended claim instantiated at the unterminated
string body `xy`, the unterminated payload `1`, and the empty input in
value position. -/
theorem claimC3_witness :
    parseString (tick :: ['x', 'y']) = .error (.fail .unexpectedEOF) ∧
    parseConstructor ('D' :: '(' :: ['1']) = .error (.fail .unexpectedEOF) ∧
    parseValueF 1 [] = .error (.fail .unexpectedEOF) :=
  ⟨claimC3_amended.1 ['x', 'y'] (by decide),
   claimC3_amended.2.1 ['1'] (by decide),
   claimC3_amended.2.2.1 0⟩

/-! ### C8 -/

/-- C8: in value position `T`, `F`, `N` parse to true, false, null
exactly when not immediately followed by an opening parenthesis; when
they are, they are read as constructor identifiers, so `T(1)` is
rejected as `InvalidConstructor` naming `T` rather than read as the
literal true. -/
theorem claimC8_literal_vs_constructor :
    (∀ (f : Nat) (r : St), ¬ r.head? = some '(' →
        parseValueF (f + 1) ('T' :: r) = .ok (.bool true, r) ∧
        parseValueF (f + 1) ('F' :: r) = .ok (.bool false, r) ∧
        parseValueF (f + 1) ('N' :: r) = .ok (.null, r)) ∧
    (∀ (p rest : St) (f : Nat), (')' : Char) ∉ p →
        parseValueF (f + 1) ('T' :: '(' :: (p ++ ')' :: rest)) =
          .error (.fail (.invalidConstructor "T"))) ∧
    parse "\x7ba:T\x7d" = .ok [("a", .bool true)] ∧
    parse "\x7ba:T(1)\x7d" = .error (.fail (.invalidConstructor "T")) := by
  refine ⟨?_, ?_, rfl, rfl⟩
  · intro f r h
    refine ⟨?_, ?_, ?_⟩
    · have key : parseValueF (f + 1) ('T' :: r) =
          (if ('T' : Char) = 'T' ∧ ¬ r.head? = some '(' then .ok (.bool true, r)
           else parseConstructor ('T' :: r)) := rfl
      rw [key, if_pos ⟨rfl, h⟩]
    · have key : parseValueF (f + 1) ('F' :: r) =
          (if ('F' : Char) = 'F' ∧ ¬ r.head? = some '(' then .ok (.bool false, r)
           else parseConstructor ('F' :: r)) := rfl
      rw [key, if_pos ⟨rfl, h⟩]
    · have key : parseValueF (f + 1) ('N' :: r) =
          (if ('N' : Char) = 'N' ∧ ¬ r.head? = some '(' then .ok (.null, r)
           else parseConstructor ('N' :: r)) := rfl
      rw [key, if_pos ⟨rfl, h⟩]
  · intro p rest f hr
    obtain ⟨-, hdrop⟩ := payload_scan p rest hr
    have key : parseValueF (f + 1) ('T' :: '(' :: (p ++ ')' :: rest)) =
        (match (p ++ ')' :: rest).dropWhile notRParen with
         | [] => (.error (.fail .unexpectedEOF) : PRes (DTXTValue × St))
         | _ :: r3 => .error (.fail (.invalidConstructor "T"))) := rfl
    rw [key, hdrop]

/-- C8 witness: the literal part at the closing-brace continuation and
the constructor part at payload `1`. -/
theorem claimC8_witness :
    parseValueF 1 ('T' :: [rbrace]) = .ok (.bool true, [rbrace]) ∧
    parseValueF 1 ('T' :: '(' :: (['1'] ++ ')' :: [])) =
      .error (.fail (.invalidConstructor "T")) :=
  ⟨(claimC8_literal_vs_constructor.1 0 [rbrace] (by decide)).1,
   claimC8_literal_vs_constructor.2.1 ['1'] [] 0 (by decide)⟩

end DTXT
namespace DTXT

/-! ### C9 -/

/-- C9: a `BN(payload)` form parses to `BigInt n` exactly when the
payload is base-10 text of a signed 64-bit integer (optional sign, at
least one digit, value within the i64 range, as `i64::from_str`
accepts), and is `InvalidConstructor` otherwise; in particular the
maximum i64 parses and a 20-digit payload fails. -/
theorem claimC9_bigint_constructor :
    (∀ (p rest : St), (')' : Char) ∉ p →
        parseConstructor ('B' :: 'N' :: '(' :: (p ++ ')' :: rest)) =
          (match i64FromStr? p with
           | some n => .ok (.bigInt n, rest)
           | none => .error (.fail (.invalidConstructor ("BN(" ++ String.mk p ++ ")"))))) ∧
    (∀ (p : St) (n : Int), i64FromStr? p = some n → -(2 ^ 63) ≤ n ∧ n < 2 ^ 63) ∧
    parse "\x7ba:BN(9223372036854775807)\x7d" = .ok [("a", .bigInt 9223372036854775807)] ∧
    parse "\x7ba:BN(99999999999999999999)\x7d" =
      .error (.fail (.invalidConstructor "BN(99999999999999999999)")) := by
  refine ⟨?_, ?_, rfl, rfl⟩
  · intro p rest hr
    obtain ⟨htake, hdrop⟩ := payload_scan p rest hr
    have key : parseConstructor ('B' :: 'N' :: '(' :: (p ++ ')' :: rest)) =
        (match (p ++ ')' :: rest).dropWhile notRParen with
         | [] => (.error (.fail .unexpectedEOF) : PRes (DTXTValue × St))
         | _ :: r3 =>
           match i64FromStr? ((p ++ ')' :: rest).takeWhile notRParen) with
           | some n => .ok (.bigInt n, r3)
           | none =>
             .error (.fail (.invalidConstructor
               ("BN(" ++ String.mk ((p ++ ')' :: rest).takeWhile notRParen) ++ ")")))) := rfl
    rw [key, hdrop, htake]
  · intro p n h
    simp only [i64FromStr?] at h
    split at h
    · obtain ⟨hrange, hv⟩ := ifSome_inv h
      exact hv ▸ hrange
    · exact Option.noConfusion h

/-- C9 witness: the constructor equivalence applied at payload `12`
and the range fact at the same payload. -/
theorem claimC9_witness :
    parseConstructor ('B' :: 'N' :: '(' :: ("12".data ++ ')' :: [])) = .ok (.bigInt 12, []) ∧
    (-(2 ^ 63) ≤ (12 : Int) ∧ (12 : Int) < 2 ^ 63) :=
  ⟨(claimC9_bigint_constructor.1 "12".data [] (by decide)).trans (by rfl),
   claimC9_bigint_constructor.2.1 "12".data 12 (by rfl)⟩

/-! ### C10 -/

/-- C10: the separating comma between members and between elements is
optional: the post-member step consumes a comma only if one is present,
so a state with a comma (that is not followed by a further comma-headed
member) continues exactly like the state without it, in both the object
and the array loop; concretely, `{a:1 b:2}` and `[1 2]` parse like
their comma-separated forms. -/
theorem claimC10_comma_optional :
    (∀ (pv : St → PRes (DTXTValue × St)) (f : Nat) (acc : Entries) (r : St),
        ¬ (skipWs r).head? = some ',' →
        objLoopF pv f acc (commaStep (skipWs (',' :: r))) =
          objLoopF pv f acc (commaStep (skipWs r))) ∧
    (∀ (pv : St → PRes (DTXTValue × St)) (f : Nat) (acc : List DTXTValue) (r : St),
        ¬ (skipWs r).head? = some ',' →
        arrLoopF pv f acc (commaStep (skipWs (',' :: r))) =
          arrLoopF pv f acc (commaStep (skipWs r))) ∧
    parse "\x7ba:1 b:2\x7d" = parse "\x7ba:1,b:2\x7d" ∧
    parse "\x7ba:1,b:2\x7d" = .ok [("a", .number "1"), ("b", .number "2")] ∧
    parse "\x7ba:[1 2]\x7d" = parse "\x7ba:[1,2]\x7d" ∧
    parse "\x7ba:[1,2]\x7d" = .ok [("a", .array [.number "1", .number "2"])] := by
  have step : ∀ r : St, ¬ (skipWs r).head? = some ',' →
      commaStep (skipWs (',' :: r)) = commaStep (skipWs r) := by
    intro r h
    have h1 : skipWs (',' :: r) = ',' :: r := skipWs_cons _ _ rfl (by decide)
    have h2 : commaStep (',' :: r) = skipWs r := by simp [commaStep]
    rw [h1, h2, commaStep_of_head_ne _ h]
  exact ⟨fun pv f acc r h => by rw [step r h],
    fun pv f acc r h => by rw [step r h], rfl, rfl, rfl, rfl⟩

/-- C10 witness: the object-loop part applied at the concrete
continuation consisting of a closing brace. -/
theorem claimC10_witness :
    objLoopF (parseValueF 1) 1 [] (commaStep (skipWs (',' :: [rbrace]))) =
      objLoopF (parseValueF 1) 1 [] (commaStep (skipWs [rbrace])) :=
  claimC10_comma_optional.1 (parseValueF 1) 1 [] [rbrace] (by decide)

end DTXT
namespace DTXT

/-! ### C6 -/

/-- The key sequence the stringifier emits is ascending. -/
theorem sortKeys_sorted (m : Entries) : List.Sorted keyLe (sortKeys m) :=
  List.sorted_insertionSort keyLe _

/-- Permuting the entries does not change the sorted key sequence. -/
theorem sortKeys_perm_eq {l₁ l₂ : Entries} (h : l₁.Perm l₂) :
    sortKeys l₁ = sortKeys l₂ :=
  List.eq_of_perm_of_sorted
    ((List.perm_insertionSort keyLe _).trans
      ((h.map Prod.fst).trans (List.perm_insertionSort keyLe _).symm))
    (sortKeys_sorted l₁) (sortKeys_sorted l₂)

/-- Association-list lookup is stable under permutation when the keys
are duplicate-free. -/
theorem lookup_eq_of_perm : ∀ {l₁ l₂ : Entries}, l₁.Perm l₂ →
    (l₁.map Prod.fst).Nodup → ∀ k, List.lookup k l₁ = List.lookup k l₂ := by
  intro l₁ l₂ h
  induction h with
  | nil => exact fun _ _ => rfl
  | cons x h ih =>
    intro nd k
    obtain ⟨xk, xv⟩ := x
    rw [List.map_cons] at nd
    have nd' := nd.of_cons
    cases hkx : k == xk <;> simp [List.lookup, hkx, ih nd' k]
  | swap x y l =>
    intro nd k
    obtain ⟨xk, xv⟩ := x
    obtain ⟨yk, yv⟩ := y
    rw [List.map_cons, List.map_cons] at nd
    have hne : ¬ yk = xk := by
      intro he
      exact (List.nodup_cons.mp nd).1 (he ▸ List.mem_cons_self xk (l.map Prod.fst))
    cases hky : k == yk <;> cases hkx : k == xk
    · simp [List.lookup, hky, hkx]
    · simp [List.lookup, hky, hkx]
    · simp [List.lookup, hky, hkx]
    · exact absurd ((beq_iff_eq.mp hky).symm.trans (beq_iff_eq.mp hkx)) hne
  | trans h₁ h₂ ih₁ ih₂ =>
    intro nd k
    have nd₂ := ((h₁.map Prod.fst).nodup_iff).mp nd
    rw [ih₁ nd k, ih₂ nd₂ k]

/-- The lookup function of a duplicate-free entry list is stable under
permutation. -/
theorem lookupVal_eq_of_perm {l₁ l₂ : Entries} (h : l₁.Perm l₂)
    (nd : (l₁.map Prod.fst).Nodup) : lookupVal l₁ = lookupVal l₂ :=
  funext fun k => by unfold lookupVal; rw [lookup_eq_of_perm h nd k]

/-- C6: the stringifier emits object keys in ascending order in both
modes (the emitted key sequence `sortKeys` is sorted by the
byte/lexicographic order `keyLe`), its output is invariant under
permuting the entries of a duplicate-free object (so equal value trees
give byte-identical output regardless of the mapping's internal
order), and the keys `z, a, m` are emitted in order `a, m, z` in both
compact and indented mode. -/
theorem claimC6_sorted_keys :
    (∀ m : Entries, List.Sorted keyLe (sortKeys m)) ∧
    (∀ (fuel : Nat) (l₁ l₂ : Entries) (ind : Option String) (level : Nat),
        l₁.Perm l₂ → (l₁.map Prod.fst).Nodup →
        stringifyValue fuel (.object l₁) ind level =
          stringifyValue fuel (.object l₂) ind level) ∧
    stringify 4 (.object [("z", .null), ("a", .bool true), ("m", .bool false)]) none =
      "\x7ba:T,m:F,z:N\x7d" ∧
    stringify 4 (.object [("z", .null), ("a", .bool true), ("m", .bool false)]) (some " ") =
      "\x7b\n a: T,\n m: F,\n z: N,\n\x7d" := by
  refine ⟨sortKeys_sorted, ?_, rfl, rfl⟩
  intro fuel l₁ l₂ ind level hp nd
  cases fuel with
  | zero => rfl
  | succ f =>
    cases l₁ with
    | nil =>
      obtain rfl : l₂ = [] := hp.nil_eq.symm
      rfl
    | cons a as =>
      cases l₂ with
      | nil => exact (List.cons_ne_nil a as hp.eq_nil).elim
      | cons b bs =>
        have hks := sortKeys_perm_eq hp
        have hlv := lookupVal_eq_of_perm hp nd
        simp only [stringifyValue]
        rw [hks, hlv]

/-- C6 witness: permutation invariance applied to the two-entry object
with keys `z`, `a` in both insertion orders. -/
theorem claimC6_witness :
    stringifyValue 3 (.object [("z", .null), ("a", .bool true)]) none 0 =
      stringifyValue 3 (.object [("a", .bool true), ("z", .null)]) none 0 :=
  claimC6_sorted_keys.2.1 3 [("z", DTXTValue.null), ("a", DTXTValue.bool true)]
    [("a", DTXTValue.bool true), ("z", DTXTValue.null)] none 0
    (List.Perm.swap ("a", DTXTValue.bool true) ("z", DTXTValue.null) []) (by decide)

end DTXT
